import Mathlib

/-!
Shallow embedding of the GPU telemetry server (`src/server/app.py`):
the device enumerator `get_gpus`, the process attribution resolver
`_add_process_info` with its five fallback strategies, and the snapshot
endpoint.  External effects (the `subprocess` command runner and the
`pynvml` library) are modelled as an explicit environment; Python string
and numeric primitives used by the code are modelled character-for-character
on `List Char`.
-/

namespace GpuGlow

/-- Python exceptions that the modelled code can raise or catch. -/
inductive PyExn where
  | valueError
  | overflowError
  | calledProcessError
deriving DecidableEq, Repr

deriving instance DecidableEq for Except

set_option maxRecDepth 10000

/-! ## Python string primitives -/

/-- Characters treated as whitespace by Python `str.strip()` / `str.split()`
(ASCII subset; the modelled strings are ASCII). -/
def pyIsSpace (c : Char) : Bool :=
  c = ' ' ∨ c = '\t' ∨ c = '\n' ∨ c = '\r' ∨ c = '\x0c' ∨ c = '\x0b'

/-- Strip characters satisfying `p` from both ends of a character list. -/
def stripWhile (p : Char → Bool) (l : List Char) : List Char :=
  ((l.dropWhile p).reverse.dropWhile p).reverse

/-- Python `s.strip()` (no argument: strip whitespace). -/
def strTrim (s : String) : String := ⟨stripWhile pyIsSpace s.data⟩

/-- Python `s.strip(chars)`: strip any of the given characters from both ends. -/
def stripSet (cs : List Char) (s : String) : String :=
  ⟨stripWhile (fun c => c ∈ cs) s.data⟩

/-- Python `s.split(sep)` for a one-character separator: keeps empty fields. -/
def splitCharL (sep : Char) : List Char → List (List Char)
  | [] => [[]]
  | c :: cs =>
    let r := splitCharL sep cs
    if c = sep then [] :: r
    else
      match r with
      | h :: t => (c :: h) :: t
      | [] => [[c]]

/-- Python `s.split(sep)` on strings. -/
def splitStr (sep : Char) (s : String) : List String :=
  (splitCharL sep s.data).map (fun l => ⟨l⟩)

/-- Python `s.splitlines()`: split on newlines, with no empty trailing entry. -/
def pySplitlines (s : String) : List String :=
  if s = "" then []
  else
    let l := splitStr '\n' s
    if l.getLast? = some "" then l.dropLast else l

/-- Helper for `pySplitWs`: words of a character list, whitespace-separated.
The first argument accumulates the current word, reversed. -/
def splitWsAux : Option (List Char) → List Char → List (List Char)
  | none, [] => []
  | some acc, [] => [acc.reverse]
  | none, c :: cs =>
    if pyIsSpace c then splitWsAux none cs else splitWsAux (some [c]) cs
  | some acc, c :: cs =>
    if pyIsSpace c then acc.reverse :: splitWsAux none cs
    else splitWsAux (some (c :: acc)) cs

/-- Python `s.split()` with no argument: split on whitespace runs, dropping
empty fields. -/
def pySplitWs (s : String) : List String :=
  (splitWsAux none s.data).map (fun l => ⟨l⟩)

/-- Substring containment on character lists (Python `sub in s`). -/
def containsL (sub : List Char) : List Char → Bool
  | [] => sub.isEmpty
  | c :: cs => sub.isPrefixOf (c :: cs) || containsL sub cs

/-- Python `sub in s` on strings. -/
def strContains (s sub : String) : Bool := containsL sub.data s.data

/-- Python `s.startswith(pre)`. -/
def strStart (s pre : String) : Bool := pre.data.isPrefixOf s.data

/-- Python `s.endswith(suf)`. -/
def strEnds (s suf : String) : Bool := suf.data.isSuffixOf s.data

/-- Python `s.lower()` (ASCII). -/
def strLower (s : String) : String := ⟨s.data.map Char.toLower⟩

/-- Helper for `removeAll`: removes every occurrence of `pat`, using a skip
counter so the recursion is structural on the scanned list. -/
def removeAllAux (pat : List Char) : Nat → List Char → List Char
  | _ + 1, [] => []
  | skip + 1, _ :: cs => removeAllAux pat skip cs
  | 0, [] => []
  | 0, c :: cs =>
    if pat ≠ [] ∧ pat.isPrefixOf (c :: cs) then removeAllAux pat (pat.length - 1) cs
    else c :: removeAllAux pat 0 cs

/-- Python `s.replace(pat, "")`: delete every occurrence of `pat`. -/
def removeAll (pat : String) (s : String) : String :=
  ⟨removeAllAux pat.data 0 s.data⟩

/-- Concatenation of a list of lists (kept local to the development). -/
def listJoin : List (List α) → List α
  | [] => []
  | l :: ls => l ++ listJoin ls

/-! ## Python numeric primitives -/

/-- Numeric value of an ASCII digit list (most significant first). -/
def natOfDigits (l : List Char) : Nat :=
  l.foldl (fun a c => a * 10 + (c.toNat - 48)) 0

/-- Helper for `deUnderscore`: validates the tail of a digit group in which a
single `_` may stand between two digits (Python numeric literal rule). -/
def digitsCore : List Char → Option (List Char)
  | [] => some []
  | '_' :: c :: cs =>
    if c.isDigit then (digitsCore cs).map (fun r => c :: r) else none
  | ['_'] => none
  | c :: cs =>
    if c.isDigit then (digitsCore cs).map (fun r => c :: r) else none

/-- Validates a nonempty digit group with optional single underscores between
digits, returning the digits with the underscores removed; `none` means the
group is not a valid Python digit group. -/
def deUnderscore (l : List Char) : Option (List Char) :=
  match l with
  | c :: cs => if c.isDigit then (digitsCore cs).map (fun r => c :: r) else none
  | [] => none

/-- Splits a leading `+`/`-` sign off a character list, returning the
negativity flag and the rest. -/
def splitSign : List Char → Bool × List Char
  | '-' :: r => (true, r)
  | '+' :: r => (false, r)
  | r => (false, r)

/-- Python `int(s)` for a string argument: optional surrounding whitespace,
optional sign, then a digit group.  Raises `ValueError` otherwise. -/
def pyInt (s : String) : Except PyExn Int :=
  let l := stripWhile pyIsSpace s.data
  let sr := splitSign l
  match deUnderscore sr.2 with
  | some ds => .ok (if sr.1 then -(natOfDigits ds : Int) else (natOfDigits ds : Int))
  | none => .error .valueError

/-- Result of Python `float(s)`.  A finite value is kept as the exact decimal
`± mantissa · 10 ^ scale` (the rounding of a decimal literal to the nearest
IEEE double is not modelled; every literal the code meets is exact, and the
downstream use is integer truncation). -/
inductive PyFloatVal where
  | nan : PyFloatVal
  | inf : Bool → PyFloatVal
  | fin : Bool → Nat → Int → PyFloatVal
deriving DecidableEq, Repr

/-- Split at the first `e`/`E` (exponent marker of a float literal). -/
def splitAtE : List Char → List Char × Option (List Char)
  | [] => ([], none)
  | c :: cs =>
    if c = 'e' ∨ c = 'E' then ([], some cs)
    else
      let r := splitAtE cs
      (c :: r.1, r.2)

/-- Split at the first `.` (decimal point of a float literal). -/
def splitAtDot : List Char → List Char × Option (List Char)
  | [] => ([], none)
  | c :: cs =>
    if c = '.' then ([], some cs)
    else
      let r := splitAtDot cs
      (c :: r.1, r.2)

/-- Parse the mantissa of a float literal: digits, optionally with one decimal
point, at least one digit in total.  Returns the combined digit value and the
number of fractional digits. -/
def parseMantissa (l : List Char) : Option (Nat × Nat) :=
  let sd := splitAtDot l
  match sd.2 with
  | none => (deUnderscore sd.1).map (fun ds => (natOfDigits ds, 0))
  | some fp =>
    match sd.1, fp with
    | [], [] => none
    | [], _ => (deUnderscore fp).map (fun fs => (natOfDigits fs, fs.length))
    | _, [] => (deUnderscore sd.1).map (fun ds => (natOfDigits ds, 0))
    | _, _ => do
      let ds ← deUnderscore sd.1
      let fs ← deUnderscore fp
      some (natOfDigits (ds ++ fs), fs.length)

/-- Parse the exponent of a float literal: optional sign then a digit group. -/
def parseExpPart (l : List Char) : Option Int :=
  let sr := splitSign l
  (deUnderscore sr.2).map
    (fun ds => if sr.1 then -(natOfDigits ds : Int) else (natOfDigits ds : Int))

/-- Smallest decimal magnitude at which Python `float(s)` overflows to
infinity: values at or above `2^1024 - 2^970` round past the largest double. -/
def floatOvT : Nat := 2 ^ 1024 - 2 ^ 970

/-- Whether the exact decimal `m · 10 ^ scale` overflows the double range. -/
def floatOverflows (m : Nat) (scale : Int) : Bool :=
  if m = 0 then false
  else if 0 ≤ scale then floatOvT ≤ m * 10 ^ scale.toNat
  else floatOvT * 10 ^ (-scale).toNat ≤ m

/-- Python `float(s)` for a string argument: optional whitespace and sign,
then `inf`/`infinity`/`nan` (case-insensitive) or a decimal literal with
optional fraction and exponent.  Raises `ValueError` otherwise. -/
def pyFloat (s : String) : Except PyExn PyFloatVal :=
  let l := stripWhile pyIsSpace s.data
  let sr := splitSign l
  let low := sr.2.map Char.toLower
  if low = "inf".data ∨ low = "infinity".data then .ok (.inf sr.1)
  else if low = "nan".data then .ok .nan
  else
    let me := splitAtE sr.2
    match parseMantissa me.1 with
    | none => .error .valueError
    | some mf =>
      let eRes : Option Int :=
        match me.2 with
        | none => some 0
        | some ex => parseExpPart ex
      match eRes with
      | none => .error .valueError
      | some e =>
        let scale := e - (mf.2 : Int)
        if floatOverflows mf.1 scale then .ok (.inf sr.1)
        else .ok (.fin sr.1 mf.1 scale)

/-- Python `int(x)` for a float argument: truncation toward zero; raises
`ValueError` on NaN and `OverflowError` on infinity. -/
def pyFloatToInt : PyFloatVal → Except PyExn Int
  | .nan => .error .valueError
  | .inf _ => .error .overflowError
  | .fin neg m scale =>
    let mag : Nat := if 0 ≤ scale then m * 10 ^ scale.toNat else m / 10 ^ (-scale).toNat
    .ok (if neg then -(mag : Int) else (mag : Int))

/-- Python `int(float(s))`. -/
def pyIntFloat (s : String) : Except PyExn Int :=
  (pyFloat s).bind pyFloatToInt

/-- `int(float(s or 0))`, the enumerator's pattern for numeric CSV fields:
the empty string falls back to `0`. -/
def pyIntFloatOrZero (s : String) : Except PyExn Int :=
  if s = "" then .ok 0 else pyIntFloat s

/-! ## Data model

`Proc` and `Gpu` mirror the dictionaries built by `get_gpus` and the
strategies: one attributed process record (`{"pid", "name", "memory"}`) and
one device record (`{"id", "uuid", ..., "processes"}`). -/

/-- One attributed process record. -/
structure Proc where
  pid : Int
  name : String
  memory : Int
deriving DecidableEq, Repr

/-- One device record as produced by `get_gpus`. -/
structure Gpu where
  id : Int
  uuid : Option String
  name : String
  driverVersion : Option String
  temperature : Int
  utilization : Int
  memUsed : Int
  memTotal : Int
  powerDraw : Int
  powerLimit : Int
  fan : Option Int
  processes : List Proc
deriving DecidableEq, Repr

/-! ## External environment

The code reaches the outside world through `run_cmd` (five fixed `nvidia-smi`
command lines) and the optional `pynvml` library.  `Env` records the
behaviour of each external query: `.error ()` stands for a
`CalledProcessError` (non-zero exit; with `shell=True` a missing tool also
exits non-zero), `.ok s` for the raw stdout `s`. -/

/-- One process as reported by the `pynvml` library.  `mem = none` models a
process object without a `usedGpuMemory` attribute (the `hasattr` branch);
`mem = some none` models `usedGpuMemory` being Python `None` (the division
then raises `TypeError` and the record is skipped); `mem = some (some b)` is
a byte count. -/
structure NvmlProc where
  pid : Int
  mem : Option (Option Int)
deriving DecidableEq, Repr

/-- Behaviour of the `pynvml` library for one device index:
`handleFail` models `nvmlDeviceGetHandleByIndex` raising, `queryFail` models
either running-process query raising, `ok` gives the compute and graphics
running-process lists. -/
inductive NvmlDev where
  | handleFail
  | queryFail
  | ok (compute : List NvmlProc) (graphics : List NvmlProc)

/-- The external world as seen by one snapshot request.
`nvml = none` models `import pynvml` or `nvmlInit` raising (the outer
`except` then falls through with zero appends); an `nvmlShutdown` failure is
caught by the same handler after all appends and has no further effect, so it
is not modelled separately.  `procName pid = none` models
`nvmlSystemGetProcessName` (or the UTF-8 decode) raising. -/
structure Env where
  nvml : Option (Nat → NvmlDev)
  procName : Int → Option String
  /-- stdout of `nvidia-smi --format=csv,noheader,nounits --query-gpu=...` -/
  gpuQ : Except Unit String
  /-- stdout of `nvidia-smi -x -q` -/
  xmlQ : Except Unit String
  /-- stdout of `nvidia-smi --query-compute-apps=gpu_uuid,pid,process_name,used_memory ...` -/
  appsQ1 : Except Unit String
  /-- stdout of `nvidia-smi --query-compute-apps=gpu_uuid,pid,process_name,used_gpu_memory ...` -/
  appsQ2 : Except Unit String
  /-- stdout of plain `nvidia-smi` -/
  plainQ : Except Unit String
  /-- stdout of `nvidia-smi pmon -c 1 -s mu` -/
  pmonQ : Except Unit String

/-- The external queries a resolver run can issue, for order-of-invocation
statements. -/
inductive Cmd where
  | xmlQ
  | appsQ1
  | appsQ2
  | plainQ
  | pmonQ
deriving DecidableEq, Repr

/-- `run_cmd`: `subprocess.check_output(cmd, shell=True, text=True).strip()`.
A non-zero exit raises `CalledProcessError`; the output is stripped. -/
def runCmd (r : Except Unit String) : Except PyExn String :=
  match r with
  | .ok s => .ok (strTrim s)
  | .error _ => .error .calledProcessError

/-! ## Device enumerator (`get_gpus`, CSV parsing part) -/

/-- `s or None` on a string: the empty string becomes `None`. -/
def orNone (s : String) : Option String :=
  if s = "" then none else some s

/-- One CSV row of the device query, already split on `,` and stripped
(`parts` in `get_gpus`).  `ok none` models the `len(parts) < 10: continue`
branch; a `ValueError` from any `int(...)`/`int(float(...))` propagates, as
in the source. -/
def parseGpuParts (parts : List String) : Except PyExn (Option Gpu) :=
  if parts.length < 10 then .ok none
  else do
    let idx ← pyInt (parts.getD 0 "")
    let temp ← pyIntFloatOrZero (parts.getD 4 "")
    let util ← pyIntFloatOrZero (parts.getD 5 "")
    let memUsed ← pyIntFloatOrZero (parts.getD 6 "")
    let memTotal ← pyIntFloatOrZero (parts.getD 7 "")
    let pDraw ← pyIntFloatOrZero (parts.getD 8 "")
    let pLimit ← pyIntFloatOrZero (parts.getD 9 "")
    let fanRaw := if parts.length > 10 then parts.getD 10 "" else ""
    let fan ←
      if fanRaw ≠ "" ∧ fanRaw ≠ "N/A" ∧ fanRaw ≠ "[N/A]" then
        (pyIntFloat fanRaw).map some
      else .ok none
    .ok (some
      { id := idx
        uuid := orNone (parts.getD 1 "")
        name := parts.getD 2 ""
        driverVersion := orNone (parts.getD 3 "")
        temperature := temp
        utilization := util
        memUsed := memUsed
        memTotal := memTotal
        powerDraw := pDraw
        powerLimit := pLimit
        fan := fan
        processes := [] })

/-- One line of the device query output. -/
def parseGpuLine (line : String) : Except PyExn (Option Gpu) :=
  parseGpuParts ((splitStr ',' line).map strTrim)

/-- The enumeration loop of `get_gpus`: builds the device list in input
order, propagating any parse exception. -/
def getGpusGo : List String → List Gpu → Except PyExn (List Gpu)
  | [], acc => .ok acc
  | line :: rest, acc =>
    match parseGpuLine line with
    | .error e => .error e
    | .ok none => getGpusGo rest acc
    | .ok (some g) => getGpusGo rest (acc ++ [g])

/-! ## Strategy 1: pynvml (`_add_process_info`, method 1) -/

/-- Process-name resolution with the `f"PID {pid}"` fallback. -/
def nameFor (pn : Int → Option String) (pid : Int) : String :=
  match pn pid with
  | some n => n
  | none => "PID " ++ toString pid

/-- One pynvml process turned into a record.  `none` means the per-process
`except Exception: continue` fired (modelled: `usedGpuMemory` is `None`, so
`None // 1048576` raises `TypeError`).  A missing `usedGpuMemory` attribute
yields memory `0`; a byte count is floor-divided by `1024 * 1024` (Python
`//`). -/
def nvmlProcRecord (pn : Int → Option String) (p : NvmlProc) : Option Proc :=
  match p.mem with
  | some none => none
  | some (some b) => some ⟨p.pid, nameFor pn p.pid, Int.fdiv b (1024 * 1024)⟩
  | none => some ⟨p.pid, nameFor pn p.pid, 0⟩

/-- Strategy 1 on one device: compute then graphics process lists are
concatenated (`all_procs = list(compute_procs) + list(graphics_procs)`) and
each surviving record appended; returns the device and its appended count. -/
def strat1Dev (pn : Int → Option String) (d : NvmlDev) (g : Gpu) : Gpu × Nat :=
  match d with
  | .handleFail => (g, 0)
  | .queryFail => (g, 0)
  | .ok cp gp =>
    let newProcs := (cp ++ gp).filterMap (nvmlProcRecord pn)
    ({ g with processes := g.processes ++ newProcs }, newProcs.length)

/-- The `for i, gpu in enumerate(gpus)` loop of strategy 1. -/
def strat1Go (pn : Int → Option String) (devs : Nat → NvmlDev) :
    Nat → List Gpu → List Gpu × Nat
  | _, [] => ([], 0)
  | i, g :: gs =>
    let r := strat1Dev pn (devs i) g
    let rest := strat1Go pn devs (i + 1) gs
    (r.1 :: rest.1, r.2 + rest.2)

/-- Strategy 1 (native monitoring library): positional join by device index;
`env.nvml = none` models import/init failure, caught with zero appends. -/
def strat1 (env : Env) (gpus : List Gpu) : List Gpu × Nat :=
  match env.nvml with
  | none => (gpus, 0)
  | some devs => strat1Go env.procName devs 0 gpus

/-! ## Tag scanning (strategy 2 regex model)

Method 2 scans the XML dump with three `re` patterns.  They are modelled as
direct scanners over the character list:

* `re.findall(r"<gpu>(.*?)</gpu>", xml, re.S)` — leftmost non-overlapping
  matches, each capturing lazily up to the next closing tag (`findBlocks`);
* `re.search(r"<tag>\s*([^<]+)\s*</tag>", s)` — the capture, combined with
  the `.strip()` the code applies, equals the trimmed run of non-`<`
  characters after the first `<tag>` that is directly followed by `</tag>`
  (`searchTagText`, whose callers trim);
* `re.search(r"<tag>\s*(\d+)\s*</tag>", s)` and the `used_memory` variant
  with a `MiB` unit (`searchTagNat`, `searchMemTag`). -/

/-- State of the block scanner: outside any block, or inside one
accumulating its contents (reversed). -/
inductive BlockSt where
  | outside
  | inside (acc : List Char)

/-- Block scanner with a skip counter so the recursion is structural: emits
the contents between each `openP` and the next `closeP`, skipping matched
tags, discarding an unterminated block — the behaviour of a lazy
`(.*?)` findall. -/
def findBlocksAux (openP closeP : List Char) : Nat → BlockSt → List Char → List (List Char)
  | _ + 1, _, [] => []
  | skip + 1, st, _ :: cs => findBlocksAux openP closeP skip st cs
  | 0, _, [] => []
  | 0, .outside, c :: cs =>
    if openP ≠ [] ∧ openP.isPrefixOf (c :: cs) then
      findBlocksAux openP closeP (openP.length - 1) (.inside []) cs
    else findBlocksAux openP closeP 0 .outside cs
  | 0, .inside acc, c :: cs =>
    if closeP ≠ [] ∧ closeP.isPrefixOf (c :: cs) then
      acc.reverse :: findBlocksAux openP closeP (closeP.length - 1) .outside cs
    else findBlocksAux openP closeP 0 (.inside (c :: acc)) cs

/-- All blocks delimited by `openTag ... closeTag` in `s`. -/
def findBlocks (openTag closeTag s : String) : List String :=
  (findBlocksAux openTag.data closeTag.data 0 .outside s.data).map (fun l => ⟨l⟩)

/-- First occurrence of `<tag>`(non-`<` run)`</tag>`; returns the raw run
(callers apply `strTrim`, matching `.group(1).strip()` in the source). -/
def searchTagText (openP closeP : List Char) : List Char → Option (List Char)
  | [] => none
  | c :: cs =>
    if openP.isPrefixOf (c :: cs) then
      let rest := (c :: cs).drop openP.length
      let run := rest.takeWhile (fun x => x ≠ '<')
      let after := rest.dropWhile (fun x => x ≠ '<')
      if run ≠ [] ∧ closeP.isPrefixOf after then some run
      else searchTagText openP closeP cs
    else searchTagText openP closeP cs

/-- First occurrence of `<tag>` ws digits ws `</tag>`; returns the digits'
value. -/
def searchTagNat (openP closeP : List Char) : List Char → Option Nat
  | [] => none
  | c :: cs =>
    if openP.isPrefixOf (c :: cs) then
      let rest := ((c :: cs).drop openP.length).dropWhile pyIsSpace
      let digits := rest.takeWhile Char.isDigit
      let rest2 := (rest.dropWhile Char.isDigit).dropWhile pyIsSpace
      if digits ≠ [] ∧ closeP.isPrefixOf rest2 then some (natOfDigits digits)
      else searchTagNat openP closeP cs
    else searchTagNat openP closeP cs

/-- First occurrence of `<used_memory>` ws digits ws `MiB` ws
`</used_memory>`; returns the digits' value. -/
def searchMemTag : List Char → Option Nat
  | [] => none
  | c :: cs =>
    if "<used_memory>".data.isPrefixOf (c :: cs) then
      let rest := ((c :: cs).drop "<used_memory>".length).dropWhile pyIsSpace
      let digits := rest.takeWhile Char.isDigit
      let rest2 := (rest.dropWhile Char.isDigit).dropWhile pyIsSpace
      if "MiB".data.isPrefixOf rest2 then
        let rest3 := (rest2.drop "MiB".length).dropWhile pyIsSpace
        if digits ≠ [] ∧ "</used_memory>".data.isPrefixOf rest3 then
          some (natOfDigits digits)
        else searchMemTag cs
      else searchMemTag cs
    else searchMemTag cs

/-! ## Strategy 2: XML dump (`_add_process_info`, method 2) -/

/-- One `<process_info>` block: requires a pid; a non-matching
`used_memory` (e.g. an `N/A` sentinel) falls back to `0`; a missing name
falls back to `"unknown"`. -/
def parseProcInfo (blk : String) : Option Proc :=
  match searchTagNat "<pid>".data "</pid>".data blk.data with
  | none => none
  | some pid =>
    let pmem := (searchMemTag blk.data).getD 0
    let pname :=
      match searchTagText "<process_name>".data "</process_name>".data blk.data with
      | some t => strTrim ⟨t⟩
      | none => "unknown"
    some ⟨(pid : Int), pname, (pmem : Int)⟩

/-- All per-gpu blocks of the XML dump as (trimmed uuid, process records);
blocks without a uuid are dropped (`if not uuid_match: continue`). -/
def parseXmlBlocks (xml : String) : List (String × List Proc) :=
  (findBlocks "<gpu>" "</gpu>" xml).filterMap fun blk =>
    match searchTagText "<uuid>".data "</uuid>".data blk.data with
    | none => none
    | some u =>
      some (strTrim ⟨u⟩,
        (findBlocks "<process_info>" "</process_info>" blk).filterMap parseProcInfo)

/-- The `for g in gpus: if g.get("uuid") == gpu_uuid: append` loop shared by
methods 2 and 3: appends `p` to every device whose uuid equals `u` and
counts the appends.  A device with uuid `None` never matches a string. -/
def appendByUuid (u : String) (p : Proc) : List Gpu → List Gpu × Nat
  | [] => ([], 0)
  | g :: gs =>
    let rest := appendByUuid u p gs
    if g.uuid = some u then
      ({ g with processes := g.processes ++ [p] } :: rest.1, rest.2 + 1)
    else (g :: rest.1, rest.2)

/-- The `for g in gpus: if g.get("id") == idx: append` loop shared by
methods 4 and 5. -/
def appendById (idx : Int) (p : Proc) : List Gpu → List Gpu × Nat
  | [] => ([], 0)
  | g :: gs =>
    let rest := appendById idx p gs
    if g.id = idx then
      ({ g with processes := g.processes ++ [p] } :: rest.1, rest.2 + 1)
    else (g :: rest.1, rest.2)

/-- Inner loop of method 2: appends each process of one block by uuid. -/
def strat2Procs (u : String) : List Proc → List Gpu → Nat → List Gpu × Nat
  | [], gs, n => (gs, n)
  | p :: ps, gs, n =>
    let r := appendByUuid u p gs
    strat2Procs u ps r.1 (n + r.2)

/-- Outer loop of method 2 over the parsed gpu blocks. -/
def strat2Blocks : List (String × List Proc) → List Gpu → Nat → List Gpu × Nat
  | [], gs, n => (gs, n)
  | b :: bs, gs, n =>
    let r := strat2Procs b.1 b.2 gs n
    strat2Blocks bs r.1 r.2

/-- Strategy 2 (structured XML report): the whole method is wrapped in
`except Exception: pass`, so a failing query yields zero appends. -/
def strat2 (env : Env) (gpus : List Gpu) : List Gpu × Nat :=
  match runCmd env.xmlQ with
  | .error _ => (gpus, 0)
  | .ok xml => strat2Blocks (parseXmlBlocks xml) gpus 0

/-! ## Strategy 3: compute-apps CSV (`_add_process_info`, method 3)

Only the two `run_cmd` calls are guarded (`except CalledProcessError`); the
parse loop catches `ValueError` on `int(parts[1])` and on
`int(float(parts[3]))` but nothing else, so an `OverflowError` from an
infinite memory value propagates out of `_add_process_info`. -/

/-- The memory column of method 3: the sentinel maps to `0`
(`if parts[3] not in ("N/A", "[N/A]") else 0`), a `ValueError` from
`int(float(...))` maps to `0`, anything else from it propagates. -/
def strat3Mem (s : String) : Except PyExn Int :=
  if s = "N/A" ∨ s = "[N/A]" then .ok 0
  else
    match pyIntFloat s with
    | .ok v => .ok v
    | .error .valueError => .ok 0
    | .error e => .error e

/-- One line of the compute-apps output on the running state
(devices, appended count).  An error result carries the exception and the
state already mutated, since Python appends in place before raising. -/
def strat3Line (gs : List Gpu) (n : Nat) (line : String) :
    Except (PyExn × List Gpu) (List Gpu × Nat) :=
  if line = "" ∨ strContains line "No running" ∨ strContains line "Not Supported" then
    .ok (gs, n)
  else
    let parts := (splitStr ',' line).map strTrim
    if parts.length < 4 then .ok (gs, n)
    else
      match pyInt (parts.getD 1 "") with
      | .error _ => .ok (gs, n)
      | .ok pid =>
        match strat3Mem (parts.getD 3 "") with
        | .error e => .error (e, gs)
        | .ok pmem =>
          let r := appendByUuid (parts.getD 0 "") ⟨pid, parts.getD 2 "", pmem⟩ gs
          .ok (r.1, n + r.2)

/-- The line loop of method 3. -/
def strat3Go : List String → List Gpu → Nat → Except (PyExn × List Gpu) (List Gpu × Nat)
  | [], gs, n => .ok (gs, n)
  | line :: rest, gs, n =>
    match strat3Line gs n line with
    | .error e => .error e
    | .ok r => strat3Go rest r.1 r.2

/-- The query phase of method 3: try the `used_memory` column name, then the
`used_gpu_memory` variant.  `pout` keeps the first answer when the second
query raises, exactly as the `for pq in queries` loop leaves it. -/
def strat3Pout (env : Env) : String :=
  match runCmd env.appsQ1 with
  | .ok o1 =>
    if o1 ≠ "" ∧ ¬ strContains o1 "No running" then o1
    else
      match runCmd env.appsQ2 with
      | .ok o2 => o2
      | .error _ => o1
  | .error _ =>
    match runCmd env.appsQ2 with
    | .ok o2 => o2
    | .error _ => ""

/-- Strategy 3 (columnar compute-apps query). -/
def strat3 (env : Env) (gpus : List Gpu) : Except (PyExn × List Gpu) (List Gpu × Nat) :=
  let pout := strat3Pout env
  if pout = "" then .ok (gpus, 0)
  else strat3Go (pySplitlines pout) gpus 0

/-! ## Strategy 4: plain-text table (`_add_process_info`, method 4) -/

/-- The memory column of method 4: strip a trailing `MiB` before `int(...)`;
`none` means the `int` raised and the row is skipped by the surrounding
`except Exception: continue`. -/
def strat4Mem (s : String) : Option Int :=
  if strEnds s "MiB" then (pyInt (removeAll "MiB" s)).toOption
  else (pyInt s).toOption

/-- One table row as cols (the row already split on `|` and stripped):
`none` models every `continue` (fewer than 7 columns, or any exception in
the fixed-column parse). -/
def strat4Cols (cols : List String) : Option (Int × Int × String × Int) :=
  if cols.length < 7 then none
  else do
    let c0 ← (pySplitWs (cols.getD 0 "")).head?
    let idx ← (pyInt c0).toOption
    let c3 ← (pySplitWs (cols.getD 3 "")).head?
    let pid ← (pyInt c3).toOption
    let memPart ← (pySplitWs (cols.getD 6 "")).head?
    let pmem ← strat4Mem memPart
    some (idx, pid, cols.getD 5 "", pmem)

/-- One table row from the raw line:
`cols = [c.strip() for c in line.strip("|\n").split("|")]`. -/
def strat4Row (line : String) : Option (Int × Int × String × Int) :=
  strat4Cols ((splitStr '|' (stripSet ['|', '\n'] line)).map strTrim)

/-- The line loop of method 4, carrying the `in_block` flag. -/
def strat4Go : List String → Bool → List Gpu → Nat → List Gpu × Nat
  | [], _, gs, n => (gs, n)
  | line :: rest, inb, gs, n =>
    if strContains line "Processes:" then strat4Go rest true gs n
    else if inb ∧ strStart (strTrim line) "+" ∧ ¬ strContains line "Processes" then
      strat4Go rest inb gs n
    else if inb ∧ strStart (strTrim line) "|" then
      match strat4Row line with
      | none => strat4Go rest inb gs n
      | some row =>
        let r := appendById row.1 ⟨row.2.1, row.2.2.1, row.2.2.2⟩ gs
        strat4Go rest inb r.1 (n + r.2)
    else strat4Go rest inb gs n

/-- Strategy 4 (plain-text table): the whole method is wrapped in
`except Exception: pass`, so a failing query yields zero appends. -/
def strat4 (env : Env) (gpus : List Gpu) : List Gpu × Nat :=
  match runCmd env.plainQ with
  | .error _ => (gpus, 0)
  | .ok txt => strat4Go (pySplitlines txt) false gpus 0

/-! ## Strategy 5: pmon (`_add_process_info`, method 4 in the comments'
numbering, the `nvidia-smi pmon` last resort)

The method increments no counter: its appends are invisible to the
`appended` variable the resolver returns alongside the list.  Only
`CalledProcessError` is caught around the whole block, so an
`OverflowError` from the memory column propagates. -/

/-- The memory column of method 5: `-`/`N/A`/`[N/A]` map to `0`, a
`ValueError` from `int(float(...))` maps to `0`, anything else from it
propagates. -/
def strat5Mem (s : String) : Except PyExn Int :=
  if s = "-" ∨ s = "N/A" ∨ s = "[N/A]" then .ok 0
  else
    match pyIntFloat s with
    | .ok v => .ok v
    | .error .valueError => .ok 0
    | .error e => .error e

/-- One pmon line on the running state (devices, method-5 append count).
The count records how many appends the method performs; the Python code
keeps no such counter, and the resolver below discards it accordingly. -/
def strat5Line (gs : List Gpu) (n : Nat) (line0 : String) :
    Except (PyExn × List Gpu) (List Gpu × Nat) :=
  let line := strTrim line0
  if line = "" ∨ strStart line "#" ∨ strStart (strLower line) "gpu" then .ok (gs, n)
  else
    let parts := pySplitWs line
    if parts.length < 9 then .ok (gs, n)
    else
      match pyInt (parts.getD 0 ""), pyInt (parts.getD 1 "") with
      | .ok idx, .ok pid =>
        match strat5Mem (parts.getD 7 "") with
        | .error e => .error (e, gs)
        | .ok pmem =>
          let r := appendById idx ⟨pid, parts.getD 8 "", pmem⟩ gs
          .ok (r.1, n + r.2)
      | _, _ => .ok (gs, n)

/-- The line loop of method 5. -/
def strat5Go : List String → List Gpu → Nat → Except (PyExn × List Gpu) (List Gpu × Nat)
  | [], gs, n => .ok (gs, n)
  | line :: rest, gs, n =>
    match strat5Line gs n line with
    | .error e => .error e
    | .ok r => strat5Go rest r.1 r.2

/-- Strategy 5 (process-monitor mode). -/
def strat5 (env : Env) (gpus : List Gpu) : Except (PyExn × List Gpu) (List Gpu × Nat) :=
  match runCmd env.pmonQ with
  | .error _ => .ok (gpus, 0)
  | .ok pm => strat5Go (pySplitlines pm) gpus 0

/-! ## The resolver (`_add_process_info`)

Each later method runs under `if appended == 0`.  The `Nat` in the result is
the `appended` counter at `return gpus`; the Python-visible return value is
the (mutated) device list, i.e. the first component.  An error result
carries the exception and the list as mutated so far (Python mutates the
caller's list in place even when it then raises). -/

/-- State after methods 1–2. -/
def stage2 (env : Env) (gpus : List Gpu) : List Gpu × Nat :=
  let r1 := strat1 env gpus
  if r1.2 = 0 then strat2 env r1.1 else r1

/-- State after methods 1–3. -/
def stage3 (env : Env) (gpus : List Gpu) : Except (PyExn × List Gpu) (List Gpu × Nat) :=
  let r2 := stage2 env gpus
  if r2.2 = 0 then strat3 env r2.1 else .ok r2

/-- State after methods 1–4. -/
def stage4 (env : Env) (gpus : List Gpu) : Except (PyExn × List Gpu) (List Gpu × Nat) :=
  match stage3 env gpus with
  | .error e => .error e
  | .ok r3 => if r3.2 = 0 then .ok (strat4 env r3.1) else .ok r3

/-- `_add_process_info(gpus)`: the full cascading chain.  Note the returned
counter is `r4.2` even when method 5 appends — the last method never
increments `appended`. -/
def addProcessInfo (env : Env) (gpus : List Gpu) :
    Except (PyExn × List Gpu) (List Gpu × Nat) :=
  match stage4 env gpus with
  | .error e => .error e
  | .ok r4 =>
    if r4.2 = 0 then
      match strat5 env r4.1 with
      | .error e => .error e
      | .ok r5 => .ok (r5.1, r4.2)
    else .ok r4

/-- The device list as left in memory by `_add_process_info`, whether it
returned or raised. -/
def resolverFinal (env : Env) (gpus : List Gpu) : List Gpu :=
  match addProcessInfo env gpus with
  | .ok r => r.1
  | .error e => e.2

/-- The external queries the method-3 query phase issues: the second
compute-apps variant only runs when the first raised or produced no usable
rows. -/
def strat3Cmds (env : Env) : List Cmd :=
  match runCmd env.appsQ1 with
  | .ok o1 =>
    if o1 ≠ "" ∧ ¬ strContains o1 "No running" then [Cmd.appsQ1]
    else [Cmd.appsQ1, Cmd.appsQ2]
  | .error _ => [Cmd.appsQ1, Cmd.appsQ2]

/-- The sequence of external queries one `_add_process_info` run issues, in
order.  Method 1 talks to the library, not to `run_cmd`, so it contributes
nothing; each later method contributes only when every earlier method
appended zero records. -/
def resolverTrace (env : Env) (gpus : List Gpu) : List Cmd :=
  let r1 := strat1 env gpus
  if r1.2 ≠ 0 then []
  else
    Cmd.xmlQ ::
      (let r2 := strat2 env r1.1
       if r2.2 ≠ 0 then []
       else
         strat3Cmds env ++
           match strat3 env r2.1 with
           | .error _ => []
           | .ok r3 =>
             if r3.2 ≠ 0 then []
             else
               Cmd.plainQ ::
                 (let r4 := strat4 env r3.1
                  if r4.2 ≠ 0 then [] else [Cmd.pmonQ]))

/-! ## `get_gpus` and the snapshot endpoint -/

/-- `get_gpus()`: enumerate devices from the CSV query, then attribute
processes.  Any exception from the query, the row parse, or the resolver
propagates. -/
def getGpus (env : Env) : Except PyExn (List Gpu) :=
  match runCmd env.gpuQ with
  | .error _ => .error .calledProcessError
  | .ok out =>
    match getGpusGo (pySplitlines out) [] with
    | .error e => .error e
    | .ok gpus =>
      match addProcessInfo env gpus with
      | .error e => .error e.1
      | .ok r => .ok r.1

/-- The snapshot payload of the `/nvidia-smi.json` endpoint. -/
structure Snapshot where
  host : String
  timestamp : String
  gpus : List Gpu
deriving DecidableEq, Repr

/-- The `/nvidia-smi.json` handler: packages host, timestamp and the device
list; it installs no exception handler, so a `get_gpus` exception propagates
to the framework (which turns it into an error response) and no partial
snapshot is produced. -/
def nvidiaEndpoint (env : Env) (host timestamp : String) : Except PyExn Snapshot :=
  (getGpus env).map (fun gs => ⟨host, timestamp, gs⟩)

/-! ## Append-only extension order on device lists -/

/-- Total number of attributed process records across a device list. -/
def totalProcs (gs : List Gpu) : Nat :=
  (gs.map (fun g => g.processes.length)).sum

/-- The (uuid, processes) blocks the XML strategy works from: the parsed
dump when the query succeeds, nothing when it raises. -/
def strat2Data (env : Env) : List (String × List Proc) :=
  match runCmd env.xmlQ with
  | .error _ => []
  | .ok xml => parseXmlBlocks xml

/-- The number of records method 5 (pmon) appends in a run: zero when it
does not run or raises.  The Python `appended` counter never includes these
appends — the method has no `appended += 1`. -/
def s5yield (env : Env) (gpus : List Gpu) : Nat :=
  match stage4 env gpus with
  | .error _ => 0
  | .ok r4 =>
    if r4.2 = 0 then
      match strat5 env r4.1 with
      | .error _ => 0
      | .ok r5 => r5.2
    else 0

/-- An environment in which every external query fails and the monitoring
library is unavailable: every strategy yields zero. -/
def envNull : Env :=
  { nvml := none
    procName := fun _ => none
    gpuQ := .error ()
    xmlQ := .error ()
    appsQ1 := .error ()
    appsQ2 := .error ()
    plainQ := .error ()
    pmonQ := .error () }

/-- A freshly enumerated device with index 0 and uuid `GPU-0`. -/
def gpu0 : Gpu :=
  { id := 0, uuid := some "GPU-0", name := "dev", driverVersion := none
    temperature := 0, utilization := 0, memUsed := 0, memTotal := 0
    powerDraw := 0, powerLimit := 0, fan := none, processes := [] }

/-- `gpuExt a b`: `b` is `a` with every non-process field unchanged and some
records appended to its process list. -/
def gpuExt (a b : Gpu) : Prop :=
  a.id = b.id ∧ a.uuid = b.uuid ∧ a.name = b.name ∧ a.driverVersion = b.driverVersion ∧
  a.temperature = b.temperature ∧ a.utilization = b.utilization ∧
  a.memUsed = b.memUsed ∧ a.memTotal = b.memTotal ∧ a.powerDraw = b.powerDraw ∧
  a.powerLimit = b.powerLimit ∧ a.fan = b.fan ∧ ∃ t, b.processes = a.processes ++ t

/-- `gpusExt old new`: same devices in the same order, each extended only by
appended process records. -/
def gpusExt : List Gpu → List Gpu → Prop := List.Forall₂ gpuExt

theorem gpuExt_append (g : Gpu) (t : List Proc) :
    gpuExt g { g with processes := g.processes ++ t } :=
  ⟨rfl, rfl, rfl, rfl, rfl, rfl, rfl, rfl, rfl, rfl, rfl, t, rfl⟩

theorem gpuExt_refl (g : Gpu) : gpuExt g g :=
  ⟨rfl, rfl, rfl, rfl, rfl, rfl, rfl, rfl, rfl, rfl, rfl, [], (List.append_nil _).symm⟩

theorem gpuExt_trans {a b c : Gpu} (h1 : gpuExt a b) (h2 : gpuExt b c) : gpuExt a c := by
  obtain ⟨e1, e2, e3, e4, e5, e6, e7, e8, e9, e10, e11, t, ht⟩ := h1
  obtain ⟨f1, f2, f3, f4, f5, f6, f7, f8, f9, f10, f11, s, hs⟩ := h2
  refine ⟨e1.trans f1, e2.trans f2, e3.trans f3, e4.trans f4, e5.trans f5, e6.trans f6,
    e7.trans f7, e8.trans f8, e9.trans f9, e10.trans f10, e11.trans f11, t ++ s, ?_⟩
  rw [hs, ht, List.append_assoc]

theorem gpusExt_refl (l : List Gpu) : gpusExt l l := by
  induction l with
  | nil => exact List.Forall₂.nil
  | cons g gs ih => exact List.Forall₂.cons (gpuExt_refl g) ih

theorem gpusExt_trans : ∀ {a b c : List Gpu}, gpusExt a b → gpusExt b c → gpusExt a c := by
  intro a b c h1 h2
  induction h1 generalizing c with
  | nil => cases h2; exact List.Forall₂.nil
  | cons hg _ ih =>
    cases h2 with
    | cons hg2 hrest2 => exact List.Forall₂.cons (gpuExt_trans hg hg2) (ih hrest2)

theorem gpusExt_total_le : ∀ {a b : List Gpu}, gpusExt a b → totalProcs a ≤ totalProcs b := by
  intro a b h
  induction h with
  | nil => exact Nat.le_refl _
  | @cons x y _ _ hg _ ih =>
    obtain ⟨-, -, -, -, -, -, -, -, -, -, -, t, ht⟩ := hg
    simp only [totalProcs, List.map_cons, List.sum_cons] at *
    have : x.processes.length ≤ y.processes.length := by
      rw [ht]; simp
    omega

theorem gpuExt_procs_eq {a b : Gpu} (h : gpuExt a b) (hp : a.processes = b.processes) :
    a = b := by
  obtain ⟨e1, e2, e3, e4, e5, e6, e7, e8, e9, e10, e11, -, -⟩ := h
  cases a; cases b
  simp_all

/-- An extension that adds no record at all is the identity. -/
theorem gpusExt_total_eq : ∀ {a b : List Gpu}, gpusExt a b →
    totalProcs a = totalProcs b → a = b := by
  intro a b h
  induction h with
  | nil => intro _; rfl
  | @cons x y l₁ l₂ hg hrest ih =>
    intro htot
    obtain ⟨t, ht⟩ := hg.2.2.2.2.2.2.2.2.2.2.2
    have hle := gpusExt_total_le hrest
    simp only [totalProcs, List.map_cons, List.sum_cons] at htot hle
    have hyx : y.processes.length = x.processes.length + t.length := by
      rw [ht]; simp
    have ht0 : t.length = 0 := by omega
    have hteq : totalProcs l₁ = totalProcs l₂ := by
      simp only [totalProcs]; omega
    have hpe : x.processes = y.processes := by
      rw [ht, List.length_eq_zero.mp ht0, List.append_nil]
    rw [gpuExt_procs_eq hg hpe, ih hteq]

/-! ## Per-strategy lemmas: extension and exact append counts -/

theorem appendByUuid_ext (u : String) (p : Proc) :
    ∀ gs : List Gpu, gpusExt gs (appendByUuid u p gs).1 := by
  intro gs
  induction gs with
  | nil => exact List.Forall₂.nil
  | cons g gs ih =>
    simp only [appendByUuid]
    split
    · exact List.Forall₂.cons (gpuExt_append g [p]) ih
    · exact List.Forall₂.cons (gpuExt_refl g) ih

theorem appendByUuid_total (u : String) (p : Proc) :
    ∀ gs : List Gpu,
      totalProcs (appendByUuid u p gs).1 = totalProcs gs + (appendByUuid u p gs).2 := by
  intro gs
  induction gs with
  | nil => simp [appendByUuid, totalProcs]
  | cons g gs ih =>
    simp only [appendByUuid]
    split <;> simp only [totalProcs, List.map_cons, List.sum_cons,
      List.length_append, List.length_cons, List.length_nil] at * <;> omega

theorem appendById_ext (idx : Int) (p : Proc) :
    ∀ gs : List Gpu, gpusExt gs (appendById idx p gs).1 := by
  intro gs
  induction gs with
  | nil => exact List.Forall₂.nil
  | cons g gs ih =>
    simp only [appendById]
    split
    · exact List.Forall₂.cons (gpuExt_append g [p]) ih
    · exact List.Forall₂.cons (gpuExt_refl g) ih

theorem appendById_total (idx : Int) (p : Proc) :
    ∀ gs : List Gpu,
      totalProcs (appendById idx p gs).1 = totalProcs gs + (appendById idx p gs).2 := by
  intro gs
  induction gs with
  | nil => simp [appendById, totalProcs]
  | cons g gs ih =>
    simp only [appendById]
    split <;> simp only [totalProcs, List.map_cons, List.sum_cons,
      List.length_append, List.length_cons, List.length_nil] at * <;> omega

theorem strat1Dev_ext (pn : Int → Option String) (d : NvmlDev) (g : Gpu) :
    gpuExt g (strat1Dev pn d g).1 := by
  cases d with
  | handleFail => exact gpuExt_refl g
  | queryFail => exact gpuExt_refl g
  | ok cp gp => exact gpuExt_append g _

theorem strat1Dev_total (pn : Int → Option String) (d : NvmlDev) (g : Gpu) :
    (strat1Dev pn d g).1.processes.length = g.processes.length + (strat1Dev pn d g).2 := by
  cases d with
  | handleFail => rfl
  | queryFail => rfl
  | ok cp gp => simp [strat1Dev]

theorem strat1Go_ext (pn : Int → Option String) (devs : Nat → NvmlDev) :
    ∀ (i : Nat) (gs : List Gpu), gpusExt gs (strat1Go pn devs i gs).1 := by
  intro i gs
  induction gs generalizing i with
  | nil => exact List.Forall₂.nil
  | cons g gs ih =>
    exact List.Forall₂.cons (strat1Dev_ext pn (devs i) g) (ih (i + 1))

theorem strat1Go_total (pn : Int → Option String) (devs : Nat → NvmlDev) :
    ∀ (i : Nat) (gs : List Gpu),
      totalProcs (strat1Go pn devs i gs).1 = totalProcs gs + (strat1Go pn devs i gs).2 := by
  intro i gs
  induction gs generalizing i with
  | nil => simp [strat1Go, totalProcs]
  | cons g gs ih =>
    have h1 := strat1Dev_total pn (devs i) g
    have h2 := ih (i + 1)
    simp only [strat1Go, totalProcs, List.map_cons, List.sum_cons] at *
    omega

theorem strat1_ext (env : Env) (gpus : List Gpu) : gpusExt gpus (strat1 env gpus).1 := by
  cases h : env.nvml with
  | none => simp only [strat1, h]; exact gpusExt_refl gpus
  | some devs => simp only [strat1, h]; exact strat1Go_ext env.procName devs 0 gpus

theorem strat1_total (env : Env) (gpus : List Gpu) :
    totalProcs (strat1 env gpus).1 = totalProcs gpus + (strat1 env gpus).2 := by
  cases h : env.nvml with
  | none => simp [strat1, h]
  | some devs => simp only [strat1, h]; exact strat1Go_total env.procName devs 0 gpus

theorem strat2Procs_ext (u : String) :
    ∀ (ps : List Proc) (gs : List Gpu) (n : Nat), gpusExt gs (strat2Procs u ps gs n).1 := by
  intro ps
  induction ps with
  | nil => intro gs n; exact gpusExt_refl gs
  | cons p ps ih =>
    intro gs n
    simp only [strat2Procs]
    exact gpusExt_trans (appendByUuid_ext u p gs) (ih _ _)

theorem strat2Procs_total (u : String) :
    ∀ (ps : List Proc) (gs : List Gpu) (n : Nat),
      totalProcs (strat2Procs u ps gs n).1 + n =
        totalProcs gs + (strat2Procs u ps gs n).2 := by
  intro ps
  induction ps with
  | nil => intro gs n; simp [strat2Procs]
  | cons p ps ih =>
    intro gs n
    have h1 := appendByUuid_total u p gs
    have h2 := ih (appendByUuid u p gs).1 (n + (appendByUuid u p gs).2)
    simp only [strat2Procs] at *
    omega

theorem strat2Blocks_ext :
    ∀ (bs : List (String × List Proc)) (gs : List Gpu) (n : Nat),
      gpusExt gs (strat2Blocks bs gs n).1 := by
  intro bs
  induction bs with
  | nil => intro gs n; exact gpusExt_refl gs
  | cons b bs ih =>
    intro gs n
    simp only [strat2Blocks]
    exact gpusExt_trans (strat2Procs_ext b.1 b.2 gs n) (ih _ _)

theorem strat2Blocks_total :
    ∀ (bs : List (String × List Proc)) (gs : List Gpu) (n : Nat),
      totalProcs (strat2Blocks bs gs n).1 + n = totalProcs gs + (strat2Blocks bs gs n).2 := by
  intro bs
  induction bs with
  | nil => intro gs n; simp [strat2Blocks]
  | cons b bs ih =>
    intro gs n
    have h1 := strat2Procs_total b.1 b.2 gs n
    have h2 := ih (strat2Procs b.1 b.2 gs n).1 (strat2Procs b.1 b.2 gs n).2
    simp only [strat2Blocks] at *
    omega

theorem strat2_ext (env : Env) (gpus : List Gpu) : gpusExt gpus (strat2 env gpus).1 := by
  cases h : runCmd env.xmlQ with
  | error e => simp only [strat2, h]; exact gpusExt_refl gpus
  | ok xml => simp only [strat2, h]; exact strat2Blocks_ext _ gpus 0

theorem strat2_total (env : Env) (gpus : List Gpu) :
    totalProcs (strat2 env gpus).1 = totalProcs gpus + (strat2 env gpus).2 := by
  cases h : runCmd env.xmlQ with
  | error e => simp [strat2, h]
  | ok xml =>
    have := strat2Blocks_total (parseXmlBlocks xml) gpus 0
    simp only [strat2, h]
    omega

/-! ## Which exceptions the numeric primitives can produce -/

theorem pyFloat_err (s : String) (e : PyExn) (h : pyFloat s = .error e) :
    e = .valueError := by
  simp only [pyFloat] at h
  all_goals try split at h
  all_goals try split at h
  all_goals try split at h
  all_goals try split at h
  all_goals try split at h
  all_goals simp_all

theorem pyFloatToInt_err (v : PyFloatVal) (e : PyExn) (h : pyFloatToInt v = .error e) :
    e = .valueError ∨ e = .overflowError := by
  cases v with
  | nan => simp [pyFloatToInt] at h; exact Or.inl h.symm
  | inf b => simp [pyFloatToInt] at h; exact Or.inr h.symm
  | fin neg m scale => simp [pyFloatToInt] at h

theorem pyIntFloat_err (s : String) (e : PyExn) (h : pyIntFloat s = .error e) :
    e = .valueError ∨ e = .overflowError := by
  unfold pyIntFloat at h
  cases hf : pyFloat s with
  | error e0 =>
    rw [hf] at h
    simp [Except.bind] at h
    exact Or.inl (h ▸ pyFloat_err s e0 hf)
  | ok v =>
    rw [hf] at h
    simp [Except.bind] at h
    exact pyFloatToInt_err v e h

theorem strat3Mem_err (s : String) (e : PyExn) (h : strat3Mem s = .error e) :
    e = .overflowError := by
  unfold strat3Mem at h
  split at h
  · simp_all
  · cases hf : pyIntFloat s with
    | ok v => rw [hf] at h; simp_all
    | error e0 =>
      rw [hf] at h
      rcases pyIntFloat_err s e0 hf with h1 | h1 <;> subst h1 <;> simp_all

theorem strat5Mem_err (s : String) (e : PyExn) (h : strat5Mem s = .error e) :
    e = .overflowError := by
  unfold strat5Mem at h
  split at h
  · simp_all
  · cases hf : pyIntFloat s with
    | ok v => rw [hf] at h; simp_all
    | error e0 =>
      rw [hf] at h
      rcases pyIntFloat_err s e0 hf with h1 | h1 <;> subst h1 <;> simp_all

theorem strat3Line_ok (gs : List Gpu) (n : Nat) (line : String) (r : List Gpu × Nat)
    (h : strat3Line gs n line = .ok r) :
    gpusExt gs r.1 ∧ totalProcs r.1 + n = totalProcs gs + r.2 := by
  simp only [strat3Line] at h
  split at h
  · cases h; exact ⟨gpusExt_refl gs, rfl⟩
  · split at h
    · cases h; exact ⟨gpusExt_refl gs, rfl⟩
    · split at h
      · cases h; exact ⟨gpusExt_refl gs, rfl⟩
      · rename_i pid _
        split at h
        · cases h
        · rename_i pmem _
          cases h
          refine ⟨appendByUuid_ext _ _ gs, ?_⟩
          have := appendByUuid_total
            (((splitStr ',' line).map strTrim).getD 0 "")
            ⟨pid, ((splitStr ',' line).map strTrim).getD 2 "", pmem⟩ gs
          simp only at this ⊢
          omega

theorem strat3Line_err (gs : List Gpu) (n : Nat) (line : String) (e : PyExn)
    (gs' : List Gpu) (h : strat3Line gs n line = .error (e, gs')) :
    gs' = gs ∧ e = .overflowError := by
  simp only [strat3Line] at h
  split at h
  · cases h
  · split at h
    · cases h
    · split at h
      · cases h
      · split at h
        · rename_i e0 hm
          cases h
          exact ⟨rfl, strat3Mem_err _ _ hm⟩
        · cases h

theorem strat3Go_ok : ∀ (lines : List String) (gs : List Gpu) (n : Nat)
    (r : List Gpu × Nat), strat3Go lines gs n = .ok r →
    gpusExt gs r.1 ∧ totalProcs r.1 + n = totalProcs gs + r.2 := by
  intro lines
  induction lines with
  | nil => intro gs n r h; cases h; exact ⟨gpusExt_refl gs, rfl⟩
  | cons line rest ih =>
    intro gs n r h
    unfold strat3Go at h
    cases hl : strat3Line gs n line with
    | error e => rw [hl] at h; cases h
    | ok r1 =>
      rw [hl] at h
      have h1 := strat3Line_ok gs n line r1 hl
      have h2 := ih r1.1 r1.2 r h
      exact ⟨gpusExt_trans h1.1 h2.1, by omega⟩

theorem strat3Go_err : ∀ (lines : List String) (gs : List Gpu) (n : Nat)
    (e : PyExn) (gs' : List Gpu), strat3Go lines gs n = .error (e, gs') →
    gpusExt gs gs' ∧ e = .overflowError := by
  intro lines
  induction lines with
  | nil => intro gs n e gs' h; cases h
  | cons line rest ih =>
    intro gs n e gs' h
    unfold strat3Go at h
    cases hl : strat3Line gs n line with
    | error e1 =>
      rw [hl] at h
      injection h with h2
      subst h2
      have := strat3Line_err gs n line e gs' hl
      rw [this.1]
      exact ⟨gpusExt_refl gs, this.2⟩
    | ok r1 =>
      rw [hl] at h
      have h1 := strat3Line_ok gs n line r1 hl
      have h2 := ih r1.1 r1.2 e gs' h
      exact ⟨gpusExt_trans h1.1 h2.1, h2.2⟩

theorem strat3_ok (env : Env) (gpus : List Gpu) (r : List Gpu × Nat)
    (h : strat3 env gpus = .ok r) :
    gpusExt gpus r.1 ∧ totalProcs r.1 = totalProcs gpus + r.2 := by
  simp only [strat3] at h
  split at h
  · cases h; exact ⟨gpusExt_refl gpus, rfl⟩
  · have := strat3Go_ok _ gpus 0 r h
    exact ⟨this.1, by omega⟩

theorem strat3_err (env : Env) (gpus : List Gpu) (e : PyExn) (gs' : List Gpu)
    (h : strat3 env gpus = .error (e, gs')) :
    gpusExt gpus gs' ∧ e = .overflowError := by
  simp only [strat3] at h
  split at h
  · cases h
  · exact strat3Go_err _ gpus 0 e gs' h

theorem strat4Go_ext : ∀ (lines : List String) (inb : Bool) (gs : List Gpu) (n : Nat),
    gpusExt gs (strat4Go lines inb gs n).1 := by
  intro lines
  induction lines with
  | nil => intro inb gs n; exact gpusExt_refl gs
  | cons line rest ih =>
    intro inb gs n
    simp only [strat4Go]
    split
    · exact ih true gs n
    · split
      · exact ih inb gs n
      · split
        · split
          · exact ih inb gs n
          · exact gpusExt_trans (appendById_ext _ _ gs) (ih inb _ _)
        · exact ih inb gs n

theorem strat4Go_total : ∀ (lines : List String) (inb : Bool) (gs : List Gpu) (n : Nat),
    totalProcs (strat4Go lines inb gs n).1 + n =
      totalProcs gs + (strat4Go lines inb gs n).2 := by
  intro lines
  induction lines with
  | nil => intro inb gs n; simp [strat4Go]
  | cons line rest ih =>
    intro inb gs n
    simp only [strat4Go]
    split
    · have := ih true gs n; omega
    · split
      · have := ih inb gs n; omega
      · split
        · split
          · have := ih inb gs n; omega
          · rename_i row _
            have h1 := appendById_total row.1 ⟨row.2.1, row.2.2.1, row.2.2.2⟩ gs
            have h2 := ih inb (appendById row.1 ⟨row.2.1, row.2.2.1, row.2.2.2⟩ gs).1
              (n + (appendById row.1 ⟨row.2.1, row.2.2.1, row.2.2.2⟩ gs).2)
            omega
        · have := ih inb gs n; omega

theorem strat4_ext (env : Env) (gpus : List Gpu) : gpusExt gpus (strat4 env gpus).1 := by
  cases h : runCmd env.plainQ with
  | error e => simp only [strat4, h]; exact gpusExt_refl gpus
  | ok txt => simp only [strat4, h]; exact strat4Go_ext _ false gpus 0

theorem strat4_total (env : Env) (gpus : List Gpu) :
    totalProcs (strat4 env gpus).1 = totalProcs gpus + (strat4 env gpus).2 := by
  cases h : runCmd env.plainQ with
  | error e => simp [strat4, h]
  | ok txt =>
    simp only [strat4, h]
    have := strat4Go_total (pySplitlines txt) false gpus 0
    omega

theorem strat5Line_ok (gs : List Gpu) (n : Nat) (line : String) (r : List Gpu × Nat)
    (h : strat5Line gs n line = .ok r) :
    gpusExt gs r.1 ∧ totalProcs r.1 + n = totalProcs gs + r.2 := by
  simp only [strat5Line] at h
  split at h
  · cases h; exact ⟨gpusExt_refl gs, rfl⟩
  · split at h
    · cases h; exact ⟨gpusExt_refl gs, rfl⟩
    · split at h
      · rename_i idx pid _ _
        split at h
        · cases h
        · rename_i pmem _
          cases h
          refine ⟨appendById_ext _ _ gs, ?_⟩
          have := appendById_total idx
            ⟨pid, (pySplitWs (strTrim line)).getD 8 "", pmem⟩ gs
          simp only at this ⊢
          omega
      · cases h; exact ⟨gpusExt_refl gs, rfl⟩

theorem strat5Line_err (gs : List Gpu) (n : Nat) (line : String) (e : PyExn)
    (gs' : List Gpu) (h : strat5Line gs n line = .error (e, gs')) :
    gs' = gs ∧ e = .overflowError := by
  simp only [strat5Line] at h
  split at h
  · cases h
  · split at h
    · cases h
    · split at h
      · split at h
        · rename_i e0 hm
          cases h
          exact ⟨rfl, strat5Mem_err _ _ hm⟩
        · cases h
      · cases h

theorem strat5Go_ok : ∀ (lines : List String) (gs : List Gpu) (n : Nat)
    (r : List Gpu × Nat), strat5Go lines gs n = .ok r →
    gpusExt gs r.1 ∧ totalProcs r.1 + n = totalProcs gs + r.2 := by
  intro lines
  induction lines with
  | nil => intro gs n r h; cases h; exact ⟨gpusExt_refl gs, rfl⟩
  | cons line rest ih =>
    intro gs n r h
    unfold strat5Go at h
    cases hl : strat5Line gs n line with
    | error e => rw [hl] at h; cases h
    | ok r1 =>
      rw [hl] at h
      have h1 := strat5Line_ok gs n line r1 hl
      have h2 := ih r1.1 r1.2 r h
      exact ⟨gpusExt_trans h1.1 h2.1, by omega⟩

theorem strat5Go_err : ∀ (lines : List String) (gs : List Gpu) (n : Nat)
    (e : PyExn) (gs' : List Gpu), strat5Go lines gs n = .error (e, gs') →
    gpusExt gs gs' ∧ e = .overflowError := by
  intro lines
  induction lines with
  | nil => intro gs n e gs' h; cases h
  | cons line rest ih =>
    intro gs n e gs' h
    unfold strat5Go at h
    cases hl : strat5Line gs n line with
    | error e1 =>
      rw [hl] at h
      injection h with h2
      subst h2
      have := strat5Line_err gs n line e gs' hl
      rw [this.1]
      exact ⟨gpusExt_refl gs, this.2⟩
    | ok r1 =>
      rw [hl] at h
      have h1 := strat5Line_ok gs n line r1 hl
      have h2 := ih r1.1 r1.2 e gs' h
      exact ⟨gpusExt_trans h1.1 h2.1, h2.2⟩

theorem strat5_ok (env : Env) (gpus : List Gpu) (r : List Gpu × Nat)
    (h : strat5 env gpus = .ok r) :
    gpusExt gpus r.1 ∧ totalProcs r.1 = totalProcs gpus + r.2 := by
  simp only [strat5] at h
  split at h
  · cases h; exact ⟨gpusExt_refl gpus, rfl⟩
  · have := strat5Go_ok _ gpus 0 r h
    exact ⟨this.1, by omega⟩

theorem strat5_err (env : Env) (gpus : List Gpu) (e : PyExn) (gs' : List Gpu)
    (h : strat5 env gpus = .error (e, gs')) :
    gpusExt gpus gs' ∧ e = .overflowError := by
  simp only [strat5] at h
  split at h
  · cases h
  · exact strat5Go_err _ gpus 0 e gs' h

/-! ## Stage lemmas for the resolver chain -/

theorem stage2_ext (env : Env) (gpus : List Gpu) : gpusExt gpus (stage2 env gpus).1 := by
  by_cases h : (strat1 env gpus).2 = 0
  · simp only [stage2, h, if_true]
    exact gpusExt_trans (strat1_ext env gpus) (strat2_ext env (strat1 env gpus).1)
  · simp only [stage2, h, if_false]
    exact strat1_ext env gpus

theorem stage2_total (env : Env) (gpus : List Gpu) :
    totalProcs (stage2 env gpus).1 = totalProcs gpus + (stage2 env gpus).2 := by
  have h1 := strat1_total env gpus
  by_cases h : (strat1 env gpus).2 = 0
  · have h2 := strat2_total env (strat1 env gpus).1
    simp only [stage2, h, if_true]
    omega
  · simp only [stage2, h, if_false]
    omega

theorem stage3_ok (env : Env) (gpus : List Gpu) (r : List Gpu × Nat)
    (h : stage3 env gpus = .ok r) :
    gpusExt gpus r.1 ∧ totalProcs r.1 = totalProcs gpus + r.2 := by
  simp only [stage3] at h
  split at h
  · have h3 := strat3_ok env (stage2 env gpus).1 r h
    have h2e := stage2_ext env gpus
    have h2t := stage2_total env gpus
    rename_i hz
    exact ⟨gpusExt_trans h2e h3.1, by omega⟩
  · cases h
    exact ⟨stage2_ext env gpus, stage2_total env gpus⟩

theorem stage3_err (env : Env) (gpus : List Gpu) (e : PyExn) (gs' : List Gpu)
    (h : stage3 env gpus = .error (e, gs')) :
    gpusExt gpus gs' ∧ e = .overflowError := by
  simp only [stage3] at h
  split at h
  · have h3 := strat3_err env (stage2 env gpus).1 e gs' h
    exact ⟨gpusExt_trans (stage2_ext env gpus) h3.1, h3.2⟩
  · cases h

theorem stage4_ok (env : Env) (gpus : List Gpu) (r : List Gpu × Nat)
    (h : stage4 env gpus = .ok r) :
    gpusExt gpus r.1 ∧ totalProcs r.1 = totalProcs gpus + r.2 := by
  unfold stage4 at h
  split at h
  · cases h
  · rename_i r3 h3
    have hs3 := stage3_ok env gpus r3 h3
    split at h
    · rename_i hz
      cases h
      have h4e := strat4_ext env r3.1
      have h4t := strat4_total env r3.1
      exact ⟨gpusExt_trans hs3.1 h4e, by omega⟩
    · cases h
      exact hs3

theorem stage4_err (env : Env) (gpus : List Gpu) (e : PyExn) (gs' : List Gpu)
    (h : stage4 env gpus = .error (e, gs')) :
    gpusExt gpus gs' ∧ e = .overflowError := by
  unfold stage4 at h
  split at h
  · rename_i e1 h3
    injection h with h2
    subst h2
    exact stage3_err env gpus e gs' h3
  · split at h <;> cases h

theorem addProcessInfo_ok (env : Env) (gpus : List Gpu) (r : List Gpu × Nat)
    (h : addProcessInfo env gpus = .ok r) : gpusExt gpus r.1 := by
  unfold addProcessInfo at h
  split at h
  · cases h
  · rename_i r4 h4
    have hs4 := stage4_ok env gpus r4 h4
    split at h
    · split at h
      · cases h
      · rename_i r5 h5
        cases h
        exact gpusExt_trans hs4.1 (strat5_ok env r4.1 r5 h5).1
    · cases h
      exact hs4.1

theorem addProcessInfo_err (env : Env) (gpus : List Gpu) (e : PyExn) (gs' : List Gpu)
    (h : addProcessInfo env gpus = .error (e, gs')) :
    gpusExt gpus gs' ∧ e = .overflowError := by
  unfold addProcessInfo at h
  split at h
  · rename_i e1 h4
    injection h with h2
    subst h2
    exact stage4_err env gpus e gs' h4
  · rename_i r4 h4
    have hs4 := stage4_ok env gpus r4 h4
    split at h
    · split at h
      · rename_i e1 h5
        injection h with h2
        subst h2
        have h51 := strat5_err env r4.1 e gs' h5
        exact ⟨gpusExt_trans hs4.1 h51.1, h51.2⟩
      · cases h
    · cases h

/-! ## Characterization of the XML strategy's uuid join -/

theorem gpu_procs_nil (g : Gpu) : ({ g with processes := g.processes ++ [] } : Gpu) = g := by
  simp

theorem appendByUuid_map (u : String) (p : Proc) : ∀ gs : List Gpu,
    (appendByUuid u p gs).1 = gs.map (fun g =>
      if g.uuid = some u then { g with processes := g.processes ++ [p] } else g) := by
  intro gs
  induction gs with
  | nil => rfl
  | cons g gs ih =>
    by_cases h : g.uuid = some u <;> simp [appendByUuid, h, ih]

theorem strat2Procs_map (u : String) : ∀ (ps : List Proc) (gs : List Gpu) (n : Nat),
    (strat2Procs u ps gs n).1 = gs.map (fun g =>
      if g.uuid = some u then { g with processes := g.processes ++ ps } else g) := by
  intro ps
  induction ps with
  | nil =>
    intro gs n
    simp only [strat2Procs]
    have : (fun g : Gpu =>
        if g.uuid = some u then { g with processes := g.processes ++ [] } else g) =
        fun g : Gpu => g := by
      funext g
      split <;> simp
    rw [this]
    exact (List.map_id gs).symm
  | cons p ps ih =>
    intro gs n
    simp only [strat2Procs]
    rw [ih, appendByUuid_map, List.map_map]
    apply List.map_congr_left
    intro g _
    by_cases h : g.uuid = some u <;> simp [h]

theorem strat2Blocks_map : ∀ (bs : List (String × List Proc)) (gs : List Gpu) (n : Nat),
    (strat2Blocks bs gs n).1 = gs.map (fun g =>
      { g with processes := g.processes ++
          listJoin ((bs.filter (fun b => g.uuid = some b.1)).map Prod.snd) }) := by
  intro bs
  induction bs with
  | nil =>
    intro gs n
    simp only [strat2Blocks, List.filter_nil, List.map_nil, listJoin]
    have : (fun g : Gpu => { g with processes := g.processes ++ [] }) =
        fun g : Gpu => g := by
      funext g
      simp
    rw [this]
    exact (List.map_id gs).symm
  | cons b bs ih =>
    intro gs n
    simp only [strat2Blocks]
    rw [ih, strat2Procs_map, List.map_map]
    apply List.map_congr_left
    intro g _
    by_cases h : g.uuid = some b.1 <;>
      simp [h, List.filter_cons, listJoin, List.append_assoc]

/-! ## Zero-append runs leave the state untouched -/

theorem strat1_zero (env : Env) (gpus : List Gpu) (h : (strat1 env gpus).2 = 0) :
    strat1 env gpus = (gpus, 0) := by
  have he := strat1_ext env gpus
  have ht := strat1_total env gpus
  rw [h] at ht
  have h1 : gpus = (strat1 env gpus).1 := gpusExt_total_eq he (by omega)
  have hp : strat1 env gpus = ((strat1 env gpus).1, (strat1 env gpus).2) := rfl
  rw [hp, ← h1, h]

theorem strat2_zero (env : Env) (gpus : List Gpu) (h : (strat2 env gpus).2 = 0) :
    strat2 env gpus = (gpus, 0) := by
  have he := strat2_ext env gpus
  have ht := strat2_total env gpus
  rw [h] at ht
  have h1 : gpus = (strat2 env gpus).1 := gpusExt_total_eq he (by omega)
  have hp : strat2 env gpus = ((strat2 env gpus).1, (strat2 env gpus).2) := rfl
  rw [hp, ← h1, h]

theorem strat4_zero (env : Env) (gpus : List Gpu) (h : (strat4 env gpus).2 = 0) :
    strat4 env gpus = (gpus, 0) := by
  have he := strat4_ext env gpus
  have ht := strat4_total env gpus
  rw [h] at ht
  have h1 : gpus = (strat4 env gpus).1 := gpusExt_total_eq he (by omega)
  have hp : strat4 env gpus = ((strat4 env gpus).1, (strat4 env gpus).2) := rfl
  rw [hp, ← h1, h]

/-- C8: running the resolver on any device list under any external
behaviour keeps the number and order of devices, leaves every non-process
field (id, uuid, name, driverVersion, temperature, utilization, memory,
power, fan) of every device unchanged, and only ever appends to the
existing devices' process lists — whether the run returns or raises. -/
theorem c8_append_only (env : Env) (gpus : List Gpu) :
    (resolverFinal env gpus).length = gpus.length ∧
      gpusExt gpus (resolverFinal env gpus) := by
  have hext : gpusExt gpus (resolverFinal env gpus) := by
    unfold resolverFinal
    cases h : addProcessInfo env gpus with
    | ok r => exact addProcessInfo_ok env gpus r h
    | error e => exact (addProcessInfo_err env gpus e.1 e.2 (by rw [h])).1
  exact ⟨hext.length_eq.symm, hext⟩

/-- C7 counterexample: the claim says `_add_process_info` returns the total
attributed-process count and that this count equals the number of records
appended.  In this run only the pmon strategy attributes: one record is
appended to the device, yet the function's `appended` counter — returned
alongside the (actually returned) device list — is `0`, not `1`.  (The
Python return value itself is the mutated `gpus` list, line 245
`return gpus`, not an integer.) -/
theorem c7_counterexample :
    addProcessInfo
        { envNull with
            pmonQ := .ok "gpu pid type a b c d fb name\n0 4567 C 11 22 33 44 2048 python3" }
        [gpu0] =
      .ok ([{ gpu0 with processes := [⟨4567, "python3", 2048⟩] }], 0) ∧
    totalProcs [{ gpu0 with processes := [⟨4567, "python3", 2048⟩] }] =
      totalProcs [gpu0] + 1 := by
  constructor
  · decide
  · decide

/-- C7 amended: `_add_process_info` returns the mutated device list (not a
count); the internal `appended` counter it maintains equals the number of
records appended by strategies 1–4 only, while the appends of strategy 5
(pmon) are never counted.  Formally: on a normal return `(gs, n)`, the
records gained satisfy `totalProcs gs = totalProcs gpus + n + s5yield`,
where `s5yield` is the number of records the pmon strategy appended. -/
theorem c7_returned_count (env : Env) (gpus : List Gpu) (gs : List Gpu) (n : Nat)
    (h : addProcessInfo env gpus = .ok (gs, n)) :
    totalProcs gs = totalProcs gpus + n + s5yield env gpus := by
  unfold addProcessInfo at h
  split at h
  · cases h
  · rename_i r4 h4
    have hs4 := stage4_ok env gpus r4 h4
    split at h
    · rename_i hz
      split at h
      · cases h
      · rename_i r5 h5
        injection h with h2
        have hs5 := strat5_ok env r4.1 r5 h5
        have hy : s5yield env gpus = r5.2 := by
          simp only [s5yield, h4, hz, if_true, h5]
        have hg : gs = r5.1 := (congrArg Prod.fst h2).symm
        have hn : n = r4.2 := (congrArg Prod.snd h2).symm
        rw [hy, hg, hn, hz]
        omega
    · rename_i hz
      cases h
      have hy : s5yield env gpus = 0 := by
        simp only [s5yield, h4]
        rw [if_neg hz]
      rw [hy]
      dsimp only at hs4
      omega

/-- C7 witness for `c7_returned_count`: in the run of `c7_counterexample`'s
shape (rebuilt here), the pmon strategy appends one record; the theorem
instantiated there yields `1 = 0 + 0 + 1`. -/
theorem c7_witness :
    totalProcs [{ gpu0 with processes := [⟨4567, "python3", 2048⟩] }] =
      totalProcs [gpu0] + 0 +
        s5yield
          { envNull with
              pmonQ := .ok "gpu pid type a b c d fb name\n0 4567 C 99 22 33 44 2048 python3" }
          [gpu0] := by
  have := c7_returned_count
    { envNull with
        pmonQ := .ok "gpu pid type a b c d fb name\n0 4567 C 99 22 33 44 2048 python3" }
    [gpu0] [{ gpu0 with processes := [⟨4567, "python3", 2048⟩] }] 0 (by decide)
  exact this

/-- C2 counterexample: the claim says the resolver never raises for any
behaviour of the external runner.  But when strategies 1–2 yield nothing and
the compute-apps query returns a row whose memory field is `inf`,
`int(float("inf"))` raises `OverflowError`, which method 3 does not catch
(its `except` clauses cover only `CalledProcessError` and `ValueError`), so
`_add_process_info` raises. -/
theorem c2_counterexample :
    addProcessInfo { envNull with appsQ1 := .ok "GPU-x, 1, a, inf" } [] =
      .error (.overflowError, []) := by
  decide

/-- C2 amended: the resolver either returns normally or raises
`OverflowError` (the only escaping exception, possible only from an infinite
memory value in the strategy–3/5 parse); and when every strategy yields zero
attributions, it returns the device list completely unchanged with count 0 —
in particular every enumerator-fresh device keeps an empty process list.
(A strategy "yields zero" is stated as the strategy returning its input with
count 0; by `strat1_zero`/`strat2_zero`/`strat4_zero` and `strat3_ok`/
`strat5_ok`, a zero count alone already forces the unchanged state.) -/
theorem c2_no_propagation (env : Env) (gpus : List Gpu) :
    ((∃ r, addProcessInfo env gpus = .ok r) ∨
      (∃ gs', addProcessInfo env gpus = .error (.overflowError, gs'))) ∧
    ((strat1 env gpus).2 = 0 → (strat2 env gpus).2 = 0 →
      strat3 env gpus = .ok (gpus, 0) → (strat4 env gpus).2 = 0 →
      strat5 env gpus = .ok (gpus, 0) →
      addProcessInfo env gpus = .ok (gpus, 0)) := by
  constructor
  · cases h : addProcessInfo env gpus with
    | ok r => exact Or.inl ⟨r, rfl⟩
    | error e =>
      obtain ⟨ex, gsx⟩ := e
      have he := addProcessInfo_err env gpus ex gsx h
      refine Or.inr ⟨gsx, ?_⟩
      rw [he.2]
  · intro h1 h2 h3 h4 h5
    have e1 := strat1_zero env gpus h1
    have e2 : stage2 env gpus = (gpus, 0) := by
      simp only [stage2, e1]
      exact strat2_zero env gpus h2
    have e3 : stage3 env gpus = .ok (gpus, 0) := by
      simp only [stage3, e2]
      exact h3
    have e4 : stage4 env gpus = .ok (gpus, 0) := by
      simp only [stage4, e3]
      rw [strat4_zero env gpus h4]
      simp
    simp only [addProcessInfo, e4, h5]
    simp

/-- C2 witness for `c2_no_propagation`: with every external query failing,
all five strategies yield zero and the resolver returns the untouched device
list with count 0. -/
theorem c2_witness : addProcessInfo envNull [gpu0] = .ok ([gpu0], 0) :=
  (c2_no_propagation envNull [gpu0]).2 (by decide) (by decide) (by decide)
    (by decide) (by decide)

/-! ## C1: strict strategy order -/

theorem strat3Cmds_mem (env : Env) (c : Cmd) (h : c ∈ strat3Cmds env) :
    c = Cmd.appsQ1 ∨ c = Cmd.appsQ2 := by
  unfold strat3Cmds at h
  split at h
  · split at h <;> simp_all
  · simp_all

/-- C1: the resolver evaluates the strategies strictly in order and
short-circuits on first success.  Over the issued-query trace: if strategy 1
(the library) attributes at least one process, the trace is empty — no
external query of strategies 2–5 is ever issued; the XML query is issued
only when strategy 1 appended zero; a compute-apps query only when
strategies 1–2 appended zero; the plain-text query only when strategies 1–3
appended zero; the pmon query only when strategies 1–4 appended zero. -/
theorem c1_short_circuit (env : Env) (gpus : List Gpu) :
    (1 ≤ (strat1 env gpus).2 → resolverTrace env gpus = []) ∧
    (Cmd.xmlQ ∈ resolverTrace env gpus → (strat1 env gpus).2 = 0) ∧
    ((Cmd.appsQ1 ∈ resolverTrace env gpus ∨ Cmd.appsQ2 ∈ resolverTrace env gpus) →
      (stage2 env gpus).2 = 0) ∧
    (Cmd.plainQ ∈ resolverTrace env gpus →
      ∃ g3, stage3 env gpus = .ok (g3, 0)) ∧
    (Cmd.pmonQ ∈ resolverTrace env gpus →
      ∃ g4, stage4 env gpus = .ok (g4, 0)) := by
  by_cases h1 : (strat1 env gpus).2 = 0
  case neg =>
    have ht : resolverTrace env gpus = [] := by
      simp only [resolverTrace]
      rw [if_pos h1]
    rw [ht]
    exact ⟨fun _ => rfl, fun hm => absurd hm (by simp),
      fun hm => absurd hm (by simp), fun hm => absurd hm (by simp),
      fun hm => absurd hm (by simp)⟩
  case pos =>
    have hs2 : stage2 env gpus = strat2 env (strat1 env gpus).1 := by
      simp only [stage2, h1, if_true]
    by_cases h2 : (strat2 env (strat1 env gpus).1).2 = 0
    case neg =>
      have ht : resolverTrace env gpus = [Cmd.xmlQ] := by
        simp only [resolverTrace]
        rw [if_neg (not_not_intro h1), if_pos h2]
      rw [ht]
      refine ⟨fun hx => absurd (h1 ▸ hx) (by decide), fun _ => h1,
        fun hm => ?_, fun hm => absurd hm (by simp), fun hm => absurd hm (by simp)⟩
      rcases hm with hm | hm <;> simp at hm
    case pos =>
      have hstage3 : stage3 env gpus = strat3 env (strat2 env (strat1 env gpus).1).1 := by
        simp only [stage3, hs2]
        rw [if_pos h2]
      cases hs3 : strat3 env (strat2 env (strat1 env gpus).1).1 with
      | error e =>
        have ht : resolverTrace env gpus = Cmd.xmlQ :: strat3Cmds env := by
          simp only [resolverTrace]
          rw [if_neg (not_not_intro h1), if_neg (not_not_intro h2), hs3]
          simp
        rw [ht]
        refine ⟨fun hx => absurd (h1 ▸ hx) (by decide), fun _ => h1,
          fun _ => by rw [hs2]; exact h2, fun hm => ?_, fun hm => ?_⟩
        · rcases List.mem_cons.mp hm with hm | hm
          · simp at hm
          · rcases strat3Cmds_mem env _ hm with hm | hm <;> simp at hm
        · rcases List.mem_cons.mp hm with hm | hm
          · simp at hm
          · rcases strat3Cmds_mem env _ hm with hm | hm <;> simp at hm
      | ok r3 =>
        obtain ⟨g3v, n3v⟩ := r3
        by_cases h3 : n3v = 0
        case neg =>
          have ht : resolverTrace env gpus = Cmd.xmlQ :: strat3Cmds env := by
            simp only [resolverTrace]
            rw [if_neg (not_not_intro h1), if_neg (not_not_intro h2), hs3]
            simp only [if_pos h3]
            simp
          rw [ht]
          refine ⟨fun hx => absurd (h1 ▸ hx) (by decide), fun _ => h1,
            fun _ => by rw [hs2]; exact h2, fun hm => ?_, fun hm => ?_⟩
          · rcases List.mem_cons.mp hm with hm | hm
            · simp at hm
            · rcases strat3Cmds_mem env _ hm with hm | hm <;> simp at hm
          · rcases List.mem_cons.mp hm with hm | hm
            · simp at hm
            · rcases strat3Cmds_mem env _ hm with hm | hm <;> simp at hm
        case pos =>
          subst h3
          have hst3 : stage3 env gpus = .ok (g3v, 0) := by rw [hstage3, hs3]
          by_cases h4 : (strat4 env g3v).2 = 0
          case neg =>
            have ht : resolverTrace env gpus =
                Cmd.xmlQ :: (strat3Cmds env ++ [Cmd.plainQ]) := by
              simp only [resolverTrace]
              rw [if_neg (not_not_intro h1), if_neg (not_not_intro h2), hs3]
              simp only [ne_eq, not_true_eq_false, if_false, if_pos h4]
            rw [ht]
            refine ⟨fun hx => absurd (h1 ▸ hx) (by decide), fun _ => h1,
              fun _ => by rw [hs2]; exact h2, fun _ => ⟨g3v, hst3⟩, fun hm => ?_⟩
            rcases List.mem_cons.mp hm with hm | hm
            · simp at hm
            · rcases List.mem_append.mp hm with hm | hm
              · rcases strat3Cmds_mem env _ hm with hm | hm <;> simp at hm
              · simp at hm
          case pos =>
            have ht : resolverTrace env gpus =
                Cmd.xmlQ :: (strat3Cmds env ++ [Cmd.plainQ, Cmd.pmonQ]) := by
              simp only [resolverTrace]
              rw [if_neg (not_not_intro h1), if_neg (not_not_intro h2), hs3]
              simp only [ne_eq, not_true_eq_false, if_false]
              rw [if_neg (not_not_intro h4)]
            rw [ht]
            have hst4 : stage4 env gpus = .ok ((strat4 env g3v).1, 0) := by
              simp only [stage4, hst3, if_pos]
              have : strat4 env g3v = ((strat4 env g3v).1, 0) := by
                rw [← h4]
              rw [← this]
            exact ⟨fun hx => absurd (h1 ▸ hx) (by decide), fun _ => h1,
              fun _ => by rw [hs2]; exact h2, fun _ => ⟨g3v, hst3⟩,
              fun _ => ⟨(strat4 env g3v).1, hst4⟩⟩

/-- C1 witness for `c1_short_circuit`: the library reports one compute
process on the single device, strategy 1 attributes it, and the run issues
no external query at all. -/
theorem c1_witness :
    1 ≤ (strat1 { envNull with nvml := some (fun _ => NvmlDev.ok [⟨7, none⟩] []) }
          [gpu0]).2 ∧
    resolverTrace { envNull with nvml := some (fun _ => NvmlDev.ok [⟨7, none⟩] []) }
        [gpu0] = [] :=
  ⟨by decide,
    (c1_short_circuit { envNull with nvml := some (fun _ => NvmlDev.ok [⟨7, none⟩] []) }
      [gpu0]).1 (by decide)⟩

/-- C6: join correctness of the structured-report (XML) strategy.  For every
device list and every dump, the device list after the strategy equals the
old list mapped device-by-device (no device created, removed or reordered),
where each device's process list gains exactly the processes of the gpu
blocks whose trimmed uuid equals that device's uuid, in dump order.
Consequently a process reported under uuid `U` attaches only to devices
whose `uuid` field is `U` — never to a device matched by numeric index or
position — and when no device carries `U` (or a device's uuid is `None`)
the block contributes nothing anywhere. -/
theorem c6_xml_uuid_join (env : Env) (gpus : List Gpu) :
    (strat2 env gpus).1 = gpus.map (fun g =>
      { g with processes := g.processes ++
          listJoin (((strat2Data env).filter
            (fun b => g.uuid = some b.1)).map Prod.snd) }) := by
  cases h : runCmd env.xmlQ with
  | error e =>
    simp only [strat2, strat2Data, h, List.filter_nil, List.map_nil, listJoin]
    have he : (fun g : Gpu => { g with processes := g.processes ++ [] }) =
        fun g : Gpu => g := by
      funext g
      simp
    rw [he]
    exact (List.map_id gpus).symm
  | ok xml =>
    simp only [strat2, strat2Data, h]
    exact strat2Blocks_map (parseXmlBlocks xml) gpus 0

/-- C3: the spec's plain-text-table scenario row
`| 0 1 N/A 4567 C python3 2048MiB |` (real `nvidia-smi` format: one pair of
outer pipes, fields separated by spaces).  The code computes
`cols = line.strip("|\n").split("|")`, which yields a single column for this
row, fails the `len(cols) < 7` check and skips it: nothing is attributed to
device 0, although the claim (and the code's own column comment
`GPU, GI, CI, PID, Type, Process name, GPU Memory Usage`) expects
`{pid: 4567, name: "python3", memory: 2048}` on device 0.  The run below
reaches strategy 4 with this row in the Processes section and returns with
the device untouched and count 0. -/
theorem c3_plain_table_row_skipped :
    addProcessInfo
        { envNull with plainQ := .ok "Processes:\n| 0 1 N/A 4567 C python3 2048MiB |" }
        [gpu0] = .ok ([gpu0], 0) ∧
    strat4Row "| 0 1 N/A 4567 C python3 2048MiB |" = none := by
  exact ⟨by decide, by decide⟩

/-- C4 counterexample: a device-query CSV row whose temperature field is the
`N/A` sentinel makes `get_gpus` raise `ValueError` (from
`int(float("N/A"))`): the sentinel on that metric field is not mapped to an
absent value, and producing the Device record is not exception-free.  The
claim fails for every sentinel-capable metric field except fan. -/
theorem c4_counterexample :
    getGpus { envNull with
        gpuQ := .ok "0, GPU-a, T, 535, N/A, 10, 100, 1000, 50, 200, 30" } =
      .error .valueError := by
  decide

/-- C4 amended: in `get_gpus`, only the fan field maps the `N/A`/`[N/A]`
sentinel to an explicit absent value (`None`) without raising; an empty
numeric field maps to `0` (the `or 0` default); the sentinel in any other
metric field — temperature shown here, the parse being identical for
utilization, memory and power — raises `ValueError` and aborts the row. -/
theorem c4_per_field_sentinels :
    (∀ (parts : List String) (i : Int), ¬ parts.length < 10 →
      pyInt (parts.getD 0 "") = .ok i → parts.getD 4 "" = "N/A" →
      parseGpuParts parts = .error .valueError) ∧
    (∀ (parts : List String) (i t u mu mt pd pl : Int), parts.length = 11 →
      pyInt (parts.getD 0 "") = .ok i →
      pyIntFloatOrZero (parts.getD 4 "") = .ok t →
      pyIntFloatOrZero (parts.getD 5 "") = .ok u →
      pyIntFloatOrZero (parts.getD 6 "") = .ok mu →
      pyIntFloatOrZero (parts.getD 7 "") = .ok mt →
      pyIntFloatOrZero (parts.getD 8 "") = .ok pd →
      pyIntFloatOrZero (parts.getD 9 "") = .ok pl →
      (parts.getD 10 "" = "N/A" ∨ parts.getD 10 "" = "[N/A]") →
      parseGpuParts parts = .ok (some
        { id := i, uuid := orNone (parts.getD 1 ""), name := parts.getD 2 ""
          driverVersion := orNone (parts.getD 3 ""), temperature := t
          utilization := u, memUsed := mu, memTotal := mt, powerDraw := pd
          powerLimit := pl, fan := none, processes := [] })) ∧
    pyIntFloatOrZero "" = .ok 0 := by
  refine ⟨?_, ?_, by decide⟩
  · intro parts i hlen hidx htemp
    have hna : pyIntFloatOrZero "N/A" = .error .valueError := by decide
    simp only [parseGpuParts, if_neg hlen, hidx, htemp, hna]
    rfl
  · intro parts i t u mu mt pd pl hlen hidx h4 h5 h6 h7 h8 h9 hfan
    have hl10 : ¬ parts.length < 10 := by omega
    have hgt : parts.length > 10 := by omega
    simp only [parseGpuParts, if_neg hl10, hidx, h4, h5, h6, h7, h8, h9, if_pos hgt]
    rcases hfan with hf | hf <;> rw [hf] <;> rfl

/-- C4 witness for `c4_per_field_sentinels`: instantiating the sentinel-row
branch on the temperature field and the fan-absent branch on a full row. -/
theorem c4_witness :
    parseGpuParts ["0", "GPU-a", "T", "535", "N/A", "10", "100", "1000", "50",
        "200", "30"] = .error .valueError ∧
    parseGpuParts ["0", "GPU-a", "T", "535", "40", "10", "100", "1000", "50",
        "200", "N/A"] = .ok (some
      { id := 0, uuid := some "GPU-a", name := "T", driverVersion := some "535"
        temperature := 40, utilization := 10, memUsed := 100, memTotal := 1000
        powerDraw := 50, powerLimit := 200, fan := none, processes := [] }) := by
  constructor
  · exact c4_per_field_sentinels.1 _ 0 (by decide) (by decide) (by decide)
  · have h := c4_per_field_sentinels.2.1
      ["0", "GPU-a", "T", "535", "40", "10", "100", "1000", "50", "200", "N/A"]
      0 40 10 100 1000 50 200 (by decide) (by decide) (by decide) (by decide)
      (by decide) (by decide) (by decide) (by decide) (Or.inl (by decide))
    exact h

/-- C5 counterexample: the claim wants a sentinel memory value normalized to
an explicit absent value in strategies 1–2 and to zero in strategies 3–5.
Strategy 2 stores the integer 0 for `N/A` — bitwise identical to a genuine
`0 MiB` report (first two conjuncts), so nothing absent-like is recorded;
and strategy 4 does not store zero at all: `int("N/A")` raises inside the
row's `except: continue`, the row is dropped, and the device stays empty
(third conjunct). -/
theorem c5_counterexample :
    parseXmlBlocks "<gpu><uuid>GPU-1</uuid><process_info><pid>7</pid><used_memory>N/A</used_memory><process_name>x</process_name></process_info></gpu>" =
      [("GPU-1", [⟨7, "x", 0⟩])] ∧
    parseXmlBlocks "<gpu><uuid>GPU-1</uuid><process_info><pid>7</pid><used_memory>0 MiB</used_memory><process_name>x</process_name></process_info></gpu>" =
      [("GPU-1", [⟨7, "x", 0⟩])] ∧
    strat4 { envNull with
        plainQ := .ok "Processes:\n| 0 | a | b | 12 | C | python | N/A |" } [gpu0] =
      ([gpu0], 0) := by
  exact ⟨by decide, by decide, by decide⟩

/-- C5 amended: a sentinel memory value never makes any strategy raise, but
the normalization is: strategy 1 uses 0 when the library record lacks the
memory attribute and silently drops the record when the attribute is `None`;
strategy 2 stores 0 whenever `used_memory` does not match the digits+MiB
pattern; strategy 3 maps `N/A`/`[N/A]` to 0; strategy 4 drops the whole row
(no record stored); strategy 5 maps `-`/`N/A`/`[N/A]` to 0. -/
theorem c5_sentinel_normalization :
    (∀ (pn : Int → Option String) (p : NvmlProc), p.mem = none →
      nvmlProcRecord pn p = some ⟨p.pid, nameFor pn p.pid, 0⟩) ∧
    (∀ (pn : Int → Option String) (p : NvmlProc), p.mem = some none →
      nvmlProcRecord pn p = none) ∧
    (∀ (blk : String) (p : Proc), searchMemTag blk.data = none →
      parseProcInfo blk = some p → p.memory = 0) ∧
    (strat3Mem "N/A" = .ok 0 ∧ strat3Mem "[N/A]" = .ok 0) ∧
    (strat4Mem "N/A" = none ∧
      ∀ cols : List String, (pySplitWs (cols.getD 6 "")).head? = some "N/A" →
        strat4Cols cols = none) ∧
    (strat5Mem "-" = .ok 0 ∧ strat5Mem "N/A" = .ok 0 ∧ strat5Mem "[N/A]" = .ok 0) := by
  refine ⟨?_, ?_, ?_, ⟨by decide, by decide⟩, ⟨by decide, ?_⟩,
    ⟨by decide, by decide, by decide⟩⟩
  · intro pn p h
    simp [nvmlProcRecord, h]
  · intro pn p h
    simp [nvmlProcRecord, h]
  · intro blk p hmem hp
    simp only [parseProcInfo, hmem, Option.getD_none] at hp
    split at hp
    · cases hp
    · injection hp with hp
      rw [← hp]
      simp
  · intro cols hm
    have hmem : strat4Mem "N/A" = none := by decide
    unfold strat4Cols
    split
    · rfl
    · cases hc0 : (pySplitWs (cols.getD 0 "")).head? with
      | none => rfl
      | some c0 =>
        simp only [Option.bind_eq_bind', Option.some_bind]
        cases hi : (pyInt c0).toOption with
        | none => rfl
        | some idx =>
          simp only [Option.bind_eq_bind', Option.some_bind]
          cases hc3 : (pySplitWs (cols.getD 3 "")).head? with
          | none => rfl
          | some c3 =>
            simp only [Option.bind_eq_bind', Option.some_bind]
            cases hpd : (pyInt c3).toOption with
            | none => rfl
            | some pid =>
              simp only [Option.bind_eq_bind', Option.some_bind, hm, hmem,
                Option.none_bind]

/-- C5 witness for `c5_sentinel_normalization`: the library-strategy cases
at a concrete process record, the XML case at a concrete block (pid 7,
`used_memory` `N/A`, no name — the stored memory is 0), and the plain-table
case at a concrete 7-column row with an `N/A` memory column (row dropped). -/
theorem c5_witness :
    nvmlProcRecord (fun _ => none) ⟨9, none⟩ = some ⟨9, "PID 9", 0⟩ ∧
    nvmlProcRecord (fun _ => none) ⟨9, some none⟩ = none ∧
    (⟨7, "unknown", 0⟩ : Proc).memory = 0 ∧
    strat4Cols ["0", "a", "b", "12", "C", "python", "N/A"] = none := by
  refine ⟨c5_sentinel_normalization.1 (fun _ => none) ⟨9, none⟩ rfl,
    c5_sentinel_normalization.2.1 (fun _ => none) ⟨9, some none⟩ rfl,
    c5_sentinel_normalization.2.2.1
      "<process_info><pid>7</pid><used_memory>N/A</used_memory></process_info>"
      ⟨7, "unknown", 0⟩ (by decide) (by decide),
    c5_sentinel_normalization.2.2.2.2.1.2
      ["0", "a", "b", "12", "C", "python", "N/A"] (by decide)⟩

/-- C9: if the device-query tool invocation fails (missing tool or non-zero
exit, both `CalledProcessError` under `shell=True`), the enumerator raises —
no partial device list is produced — and the snapshot endpoint propagates
the exception instead of returning a snapshot value; the web framework
surfaces it as an error response. -/
theorem c9_total_failure (env : Env) (host ts : String) (h : env.gpuQ = .error ()) :
    getGpus env = .error .calledProcessError ∧
    nvidiaEndpoint env host ts = .error .calledProcessError := by
  have hg : getGpus env = .error .calledProcessError := by
    unfold getGpus
    rw [h]
    rfl
  exact ⟨hg, by unfold nvidiaEndpoint; rw [hg]; rfl⟩

/-- C9 witness for `c9_total_failure`, at the all-failing environment. -/
theorem c9_witness :
    getGpus envNull = .error .calledProcessError ∧
    nvidiaEndpoint envNull "host" "ts" = .error .calledProcessError :=
  c9_total_failure envNull "host" "ts" rfl

/-- C10: the library strategy concatenates the compute and the graphics
running-process lists (`all_procs = list(compute_procs) +
list(graphics_procs)`) and appends every record with no deduplication: a
process with pid 5 present in both lists appears twice, with identical
fields, in the device's process list within one snapshot pass. -/
theorem c10_duplicate_pid :
    addProcessInfo
        { envNull with
            nvml := some (fun _ =>
              NvmlDev.ok [⟨5, some (some 2097152)⟩] [⟨5, some (some 2097152)⟩]),
            procName := fun _ => some "python" }
        [gpu0] =
      .ok ([{ gpu0 with processes := [⟨5, "python", 2⟩, ⟨5, "python", 2⟩] }], 2) := by
  decide

end GpuGlow
